import Mathlib

/-!
# Verification of the gopix metadata codec and reconciliation engine

A shallow embedding of the core of the `goki/gopix` picture-library code
(`picinfo/exif.go`, `picinfo/info.go`, `picinfo/picinfo.go`, `gopix/thumbs.go`)
together with proofs about its specified properties.

Modelling conventions:
* Go `time.Time` values are modelled as a calendar record `Date`
  (year/month/day/hour/minute/second); `time.Time.Before` is lexicographic
  comparison of those fields, and the Go zero time is year 1, Jan 1, 00:00:00.
* Go `float64` is modelled as `ℚ` (real-valued arithmetic; the claims compared
  against floating point results carry explicit tolerances that absorb rounding).
* Go machine `int` division truncates toward zero; we use `Int.tdiv` where the
  source divides signed integers, and `Nat` division for unsigned ones.
* Go maps (`map[string]string`) are modelled as association lists with
  insert-or-replace update.
* The raw EXIF byte blob is modelled at the boundary of the external
  `go-exif` library: a blob is `Option (List ExifTag)` — `none` for a nil
  blob, otherwise the flat entry list the library extracts from the bytes.
-/

namespace Gopix

/-! ## Dates (model of Go `time.Time`) -/

/-- Calendar date-time, the model of Go `time.Time` (wall-clock, UTC). -/
structure Date where
  y : Nat
  m : Nat
  d : Nat
  hh : Nat
  mi : Nat
  s : Nat
deriving DecidableEq, Repr

/-- The Go zero time: January 1 of year 1, 00:00:00. -/
def dateZero : Date := ⟨1, 1, 1, 0, 0, 0⟩

/-- Model of Go `time.Time.IsZero`. -/
def Date.isZero (a : Date) : Bool := a = dateZero

/-- Model of Go `time.Time.Before`: chronological (lexicographic) comparison. -/
def Date.before (a b : Date) : Bool :=
  if a.y ≠ b.y then a.y < b.y
  else if a.m ≠ b.m then a.m < b.m
  else if a.d ≠ b.d then a.d < b.d
  else if a.hh ≠ b.hh then a.hh < b.hh
  else if a.mi ≠ b.mi then a.mi < b.mi
  else a.s < b.s

/-- `Date.before` as a propositional lexicographic order, for arithmetic reasoning. -/
def Date.lt (a b : Date) : Prop :=
  a.y < b.y ∨ (a.y = b.y ∧ (a.m < b.m ∨ (a.m = b.m ∧ (a.d < b.d ∨ (a.d = b.d ∧
    (a.hh < b.hh ∨ (a.hh = b.hh ∧ (a.mi < b.mi ∨ (a.mi = b.mi ∧ a.s < b.s)))))))))

/-! ## Orientations (`picinfo/info.go`)

Go's `Orientations` type is `type Orientations int`; the named constants are
`NoOrient = 0 … OrientUndef = 9, OrientationsN = 10`, but values outside this
range are representable (the parser casts an arbitrary EXIF integer into the
type).  We therefore model the type as `Int` with named constants. -/

def NoOrient : Int := 0
def Rotated0 : Int := 1
def FlippedH : Int := 2
def Rotated180 : Int := 3
def FlippedV : Int := 4
def FlippedHRotated90L : Int := 5
def Rotated90L : Int := 6
def FlippedHRotated90R : Int := 7
def Rotated90R : Int := 8
def OrientUndef : Int := 9

/-- Image size in pixels, model of Go `image.Point`. -/
structure Point where
  x : Int
  y : Int
deriving DecidableEq, Repr

/-- `Orientations.Rotate` from `picinfo/info.go`: orientation updated with a
±90 or 180 degree rotation; a `switch` falling through to `return or`. -/
def Rotate (or : Int) (deg : Int) : Int :=
  if or = NoOrient ∨ or = Rotated0 ∨ or = OrientUndef then
    if deg = 90 then Rotated90L
    else if deg = -90 then Rotated90R
    else if deg = 180 then Rotated180
    else or
  else if or = Rotated90L then
    if deg = 90 then Rotated180
    else if deg = -90 then Rotated0
    else if deg = 180 then Rotated90R
    else or
  else if or = Rotated90R then
    if deg = 90 then Rotated0
    else if deg = -90 then Rotated180
    else if deg = 180 then Rotated90L
    else or
  else if or = Rotated180 then
    if deg = 90 then Rotated90R
    else if deg = -90 then Rotated90L
    else if deg = 180 then Rotated0
    else or
  else or

/-- `Orientations.OrientSize` from `picinfo/info.go`: the size after the image
is oriented; the 90-degree family swaps X and Y. -/
def OrientSize (or : Int) (sz : Point) : Point :=
  if or = Rotated90L ∨ or = Rotated90R ∨
     or = FlippedHRotated90L ∨ or = FlippedHRotated90R then
    ⟨sz.y, sz.x⟩
  else sz

/-- `DecDegFromDMS` from `picinfo/info.go`. -/
def DecDegFromDMS (degs mins secs : ℚ) : ℚ :=
  degs + mins / 60 + secs / 3600

/-! ## EXIF entries (boundary of the external go-exif library)

The byte-level EXIF walk is performed by the external `go-exif` library
(`exif.GetFlatExifDataUniversalSearch`); the repository's code consumes the
resulting flat list of typed entries.  We model a raw blob as
`Option (List ExifTag)` and an entry as the fields the code reads. -/

/-- A typed EXIF value, one constructor per `exifcommon` type the code
switches on.  Strings cover the ascii-formatted cases. -/
inductive TagValue where
  | longs (l : List Nat)
  | shorts (l : List Nat)
  | slongs (l : List Int)
  | rats (l : List (Nat × Nat))
  | srats (l : List (Int × Int))
  | ascii (s : String)
deriving DecidableEq, Repr

/-- One flat EXIF entry, with the fields `ParseRawExif` reads
(`TagName`, typed `Value`, `FormattedFirst`, `UnitCount`). -/
structure ExifTag where
  tagName : String
  value : TagValue
  formattedFirst : String
  unitCount : Nat
deriving DecidableEq, Repr

/-- `EntryToInt` from `picinfo/exif.go`: first component of the typed value as
an int; rational types divide numerator by denominator, 0 if the denominator
is 0.  (go-exif guarantees at least one component; an empty value yields the
zero of the fallthrough `return 0`.) -/
def EntryToInt (e : ExifTag) : Int :=
  match e.value with
  | .longs (v :: _) => Int.ofNat v
  | .shorts (v :: _) => Int.ofNat v
  | .slongs (v :: _) => v
  | .rats ((n, d) :: _) => if d ≠ 0 then Int.ofNat (n / d) else 0
  | .srats ((n, d) :: _) => if d ≠ 0 then Int.tdiv n d else 0
  | _ => 0

/-- `EntryToFloat` from `picinfo/exif.go`; float64 is modelled as `ℚ`. -/
def EntryToFloat (e : ExifTag) : ℚ :=
  match e.value with
  | .longs (v :: _) => (v : ℚ)
  | .shorts (v :: _) => (v : ℚ)
  | .slongs (v :: _) => (v : ℚ)
  | .rats ((n, d) :: _) => if d ≠ 0 then (n : ℚ) / (d : ℚ) else 0
  | .srats ((n, d) :: _) => if d ≠ 0 then (n : ℚ) / (d : ℚ) else 0
  | _ => 0

/-- Component-wise conversion of a typed value to floats (the loop bodies of
`EntryToFloats`); a rational component with denominator 0 leaves its slot 0. -/
def TagValue.toFloats : TagValue → List ℚ
  | .longs l => l.map (fun v => (v : ℚ))
  | .shorts l => l.map (fun v => (v : ℚ))
  | .slongs l => l.map (fun v => (v : ℚ))
  | .rats l => l.map (fun p => if p.2 ≠ 0 then (p.1 : ℚ) / (p.2 : ℚ) else 0)
  | .srats l => l.map (fun p => if p.2 ≠ 0 then (p.1 : ℚ) / (p.2 : ℚ) else 0)
  | .ascii _ => []

/-- `EntryToFloats` from `picinfo/exif.go`: a slice of `UnitCount` zeros with
the converted components written over it. -/
def EntryToFloats (e : ExifTag) : List ℚ :=
  (List.range e.unitCount).map (fun i => (e.value.toFloats).getD i 0)

/-! ## Date-string parsing (model of `time.Parse` on the used layouts) -/

/-- Decimal digit value of a character, if it is a digit. -/
def digitVal (c : Char) : Option Nat :=
  if '0' ≤ c ∧ c ≤ '9' then some (c.toNat - 48) else none

def num2 (a b : Char) : Option Nat := do
  let x ← digitVal a
  let y ← digitVal b
  pure (10 * x + y)

def num4 (a b c d : Char) : Option Nat := do
  let x ← num2 a b
  let y ← num2 c d
  pure (100 * x + y)

/-- Days in a month (Gregorian, as validated by Go `time.Parse`). -/
def daysIn (y m : Nat) : Nat :=
  if m = 2 then (if y % 4 = 0 ∧ (y % 100 ≠ 0 ∨ y % 400 = 0) then 29 else 28)
  else if m = 4 ∨ m = 6 ∨ m = 9 ∨ m = 11 then 30
  else 31

/-- Build a date, validating field ranges as Go `time.Parse` does. -/
def mkDate (y m d hh mi s : Nat) : Option Date :=
  if 1 ≤ m ∧ m ≤ 12 ∧ 1 ≤ d ∧ d ≤ daysIn y m ∧ hh < 24 ∧ mi < 60 ∧ s < 60 then
    some ⟨y, m, d, hh, mi, s⟩
  else none

/-- `time.Parse` on layout `"2006:01:02" ++ sep ++ "15:04:05"` (with `sep` the
character between date and time: a space in the standard EXIF layout,
a colon in the length-19 fallback). -/
def parseFullDate (sep : Char) (s : String) : Option Date :=
  match s.toList with
  | [y1, y2, y3, y4, c1, m1, m2, c2, d1, d2, c3, h1, h2, c4, i1, i2, c5, s1, s2] =>
    if c1 = ':' ∧ c2 = ':' ∧ c3 = sep ∧ c4 = ':' ∧ c5 = ':' then do
      let y ← num4 y1 y2 y3 y4
      let mo ← num2 m1 m2
      let dd ← num2 d1 d2
      let h ← num2 h1 h2
      let mi ← num2 i1 i2
      let ss ← num2 s1 s2
      mkDate y mo dd h mi ss
    else none
  | _ => none

/-- `time.Parse` on layout `"2006:01:02"` (date only, midnight). -/
def parseDateOnly (s : String) : Option Date :=
  match s.toList with
  | [y1, y2, y3, y4, c1, m1, m2, c2, d1, d2] =>
    if c1 = ':' ∧ c2 = ':' then do
      let y ← num4 y1 y2 y3 y4
      let mo ← num2 m1 m2
      let dd ← num2 d1 d2
      mkDate y mo dd 0 0 0
    else none
  | _ => none

/-- `ExifDateParser` from `picinfo/exif.go`: the standard EXIF timestamp
layout, then the length-11, length-10 and all-colon length-19 fallbacks. -/
def ExifDateParser (ds : String) : Option Date :=
  match parseFullDate ' ' ds with
  | some dt => some dt
  | none =>
    if ds.length = 11 then parseDateOnly (ds.take 10)
    else if ds.length = 10 then parseDateOnly ds
    else if ds.length = 19 then parseFullDate ':' ds
    else none

/-- The `dto, err = ExifDateParser(...); if err != nil { dto = time.Time{} }`
idiom of the date cases in the `ParseRawExif` entry loop: the parsed date, or
the zero time when the parse failed. -/
def parsedOrZero (s : String) : Date :=
  match ExifDateParser s with
  | some dt => dt
  | none => dateZero

/-! ## The picture record (`picinfo/info.go` `Info`) -/

/-- `Exposure` from `picinfo/info.go`. -/
structure Exposure where
  time : ℚ
  fstop : ℚ
  isoSpeed : ℚ
  focalLen : ℚ
  aperture : ℚ
deriving DecidableEq, Repr

/-- `GPSCoord` from `picinfo/info.go`. -/
structure GPSCoord where
  lat : ℚ
  long : ℚ
  alt : ℚ
deriving DecidableEq, Repr

/-- `GPSMisc` from `picinfo/info.go`. -/
structure GPSMisc where
  destBearing : ℚ
  destBearingRef : String
  imgDir : ℚ
  imgDirRef : String
  speed : ℚ
  speedRef : String
deriving DecidableEq, Repr

/-- `Info` from `picinfo/info.go`.  `Sup` (the detected file type, produced by
the external `filecat` package) is carried as an opaque integer; `File` and
`Thumb` are derived path strings. -/
structure Info where
  file : String
  ext : String
  desc : String
  fileMod : Date
  sup : Int
  number : Int
  size : Point
  depth : Int
  orient : Int
  dateTaken : Date
  dateMod : Date
  gpsLoc : GPSCoord
  gpsMisc : GPSMisc
  gpsDate : Date
  exposure : Exposure
  tags : List (String × String)
  thumb : String
deriving DecidableEq, Repr

/-- The Go zero value of `Info` (string fields empty, times zero, map nil). -/
def Info.zeroVal : Info where
  file := ""
  ext := ""
  desc := ""
  fileMod := dateZero
  sup := 0
  number := 0
  size := ⟨0, 0⟩
  depth := 0
  orient := 0
  dateTaken := dateZero
  dateMod := dateZero
  gpsLoc := ⟨0, 0, 0⟩
  gpsMisc := ⟨0, "", 0, "", 0, ""⟩
  gpsDate := dateZero
  exposure := ⟨0, 0, 0, 0, 0⟩
  tags := []
  thumb := ""

/-- `filepath.Ext`: the suffix of the final path element starting at its last
dot, empty if there is none. -/
def extAux : List Char → List Char → Option String
  | [], _ => none
  | c :: rest, acc =>
    if c = '.' then some (String.mk ('.' :: acc))
    else if c = '/' then none
    else extAux rest (c :: acc)

def filepathExt (fn : String) : String :=
  match extAux fn.toList.reverse [] with
  | some s => s
  | none => ""

/-- `NewInfoForFile` from `picinfo/exif.go`: a record initialized with basic
file info.  `stat` is the outcome of `os.Stat` (the file's modification time,
or `none` on a stat error, in which case `FileMod` keeps its zero value);
`sup` is the externally detected file type.  `DateTaken` and `DateMod` start
as `FileMod` — the method of last resort. -/
def NewInfoForFile (fn : String) (sup : Int) (stat : Option Date) : Info :=
  let pi := { Info.zeroVal with file := fn, depth := 8, ext := filepathExt fn, sup := sup }
  let pi := match stat with
    | some fm => { pi with fileMod := fm }
    | none => pi
  { pi with dateTaken := pi.fileMod, dateMod := pi.fileMod }

/-! ## `ParseRawExif` (`picinfo/exif.go`) -/

/-- Insert-or-replace on the association-list model of `map[string]string`. -/
def mapInsert (m : List (String × String)) (k v : String) : List (String × String) :=
  if m.any (fun p => p.1 = k) then m.map (fun p => if p.1 = k then (k, v) else p)
  else m ++ [(k, v)]

/-- The mutable state of the `ParseRawExif` entry loop: the record under
construction plus the local accumulators (`dto`, `dtd`, `dtp`, the two
4-element GPS arrays whose slot 3 is the hemisphere sign, and `gpstime`). -/
structure PState where
  pi : Info
  dto : Date
  dtd : Date
  dtp : Date
  lat0 : ℚ
  lat1 : ℚ
  lat2 : ℚ
  lat3 : ℚ
  long0 : ℚ
  long1 : ℚ
  long2 : ℚ
  long3 : ℚ
  gpstime : Option (List ℚ)
deriving Repr

/-- One iteration of the `ParseRawExif` entry loop: the `switch e.TagName`
from `picinfo/exif.go`.  Tag names with an empty case body are deliberately
ignored; the `default` case stores the formatted value in the open Tags map. -/
def processEntry (st : PState) (e : ExifTag) : PState :=
  let valString := e.formattedFirst
  match e.tagName with
  | "DateTimeOriginal" => { st with dto := parsedOrZero valString }
  | "DateTimeDigitized" => { st with dtd := parsedOrZero valString }
  | "DateTime" => { st with dtp := parsedOrZero valString }
  | "ImageNumber" => { st with pi := { st.pi with number := EntryToInt e } }
  | "PixelYDimension" =>
    { st with pi := { st.pi with size := { st.pi.size with y := EntryToInt e } } }
  | "PixelXDimension" =>
    { st with pi := { st.pi with size := { st.pi.size with x := EntryToInt e } } }
  | "BitsPerSample" => { st with pi := { st.pi with depth := EntryToInt e } }
  | "Orientation" => { st with pi := { st.pi with orient := EntryToInt e } }
  | "ImageDescription" => { st with pi := { st.pi with desc := valString } }
  | "ExposureTime" =>
    { st with pi := { st.pi with exposure := { st.pi.exposure with time := EntryToFloat e } } }
  | "ISOSpeedRatings" =>
    { st with pi := { st.pi with exposure := { st.pi.exposure with isoSpeed := EntryToFloat e } } }
  | "ApertureValue" =>
    { st with pi := { st.pi with exposure := { st.pi.exposure with aperture := EntryToFloat e } } }
  | "FocalLength" =>
    { st with pi := { st.pi with exposure := { st.pi.exposure with focalLen := EntryToFloat e } } }
  | "FNumber" =>
    { st with pi := { st.pi with exposure := { st.pi.exposure with fstop := EntryToFloat e } } }
  | "GPSLatitudeRef" =>
    if valString = "N" then { st with lat3 := 1 } else { st with lat3 := -1 }
  | "GPSLatitude" =>
    let rf := EntryToFloats e
    { st with lat0 := rf.getD 0 st.lat0, lat1 := rf.getD 1 st.lat1,
              lat2 := rf.getD 2 st.lat2, lat3 := rf.getD 3 st.lat3 }
  | "GPSLongitudeRef" =>
    if valString = "E" then { st with long3 := 1 } else { st with long3 := -1 }
  | "GPSLongitude" =>
    let rf := EntryToFloats e
    { st with long0 := rf.getD 0 st.long0, long1 := rf.getD 1 st.long1,
              long2 := rf.getD 2 st.long2, long3 := rf.getD 3 st.long3 }
  | "GPSAltitude" =>
    { st with pi := { st.pi with gpsLoc := { st.pi.gpsLoc with alt := EntryToFloat e } } }
  | "GPSAltitudeRef" => st
  | "GPSBearing" =>
    { st with pi := { st.pi with gpsMisc := { st.pi.gpsMisc with destBearing := EntryToFloat e } } }
  | "GPSDestBearing" =>
    { st with pi := { st.pi with gpsMisc := { st.pi.gpsMisc with destBearing := EntryToFloat e } } }
  | "GPSDestBearingRef" =>
    { st with pi := { st.pi with gpsMisc := { st.pi.gpsMisc with destBearingRef := valString } } }
  | "GPSImgDirection" =>
    { st with pi := { st.pi with gpsMisc := { st.pi.gpsMisc with imgDir := EntryToFloat e } } }
  | "GPSImgDirectionRef" =>
    { st with pi := { st.pi with gpsMisc := { st.pi.gpsMisc with imgDirRef := valString } } }
  | "GPSSpeed" =>
    { st with pi := { st.pi with gpsMisc := { st.pi.gpsMisc with speed := EntryToFloat e } } }
  | "GPSSpeedRef" =>
    { st with pi := { st.pi with gpsMisc := { st.pi.gpsMisc with speedRef := valString } } }
  | "GPSDateStamp" =>
    let ds := if valString.length > 10 then valString.take 10 else valString
    match parseDateOnly ds with
    | some gpd => { st with pi := { st.pi with gpsDate := gpd } }
    | none => st
  | "GPSTimeStamp" => { st with gpstime := some (EntryToFloats e) }
  | "ComponentsConfiguration" => st
  | "UserComment" => st
  | "MakerNote" => st
  | "InteroperabilityIndex" => st
  | "InteroperabilityVersion" => st
  | "ExifTag" => st
  | "ExifVersion" => st
  | _ => { st with pi := { st.pi with tags := mapInsert st.pi.tags e.tagName valString } }

/-- Wall-clock addition of (floor-truncated) seconds to a date, hour/minute/
second carry within the day and whole days added to the day field (the model
of `time.Time.Add` on a GPS time-of-day offset; month-length renormalization
is not modelled, no claim depends on it). -/
def Date.addSeconds (dt : Date) (q : ℚ) : Date :=
  let total : Int := (dt.hh * 3600 + dt.mi * 60 + dt.s : Nat) + q.floor
  let days := total.ediv 86400
  let secOfDay := total.emod 86400
  { dt with d := (Int.ofNat dt.d + days).toNat,
            hh := (secOfDay.ediv 3600).toNat,
            mi := ((secOfDay.emod 3600).ediv 60).toNat,
            s := (secOfDay.emod 60).toNat }

/-- `ParseRawExif` from `picinfo/exif.go` (the go-exif/v3 version in use):
walks every flat entry through the tag switch, then resolves `DateTaken`
(DateTimeOriginal, else DateTimeDigitized, else DateTime, else the value set
by `NewInfoForFile`), sets `DateMod`, applies the hemisphere signs to the GPS
arrays and combines them with `DecDegFromDMS`, and applies the GPS
time-of-day.  A nil blob leaves the record untouched. -/
def ParseRawExif (pi : Info) (rawExif : Option (List ExifTag)) : Info :=
  match rawExif with
  | none => pi
  | some entries =>
    let st0 : PState :=
      ⟨{ pi with tags := [] }, dateZero, dateZero, dateZero,
        0, 0, 0, 0, 0, 0, 0, 0, none⟩
    let st := entries.foldl processEntry st0
    let pi1 := st.pi
    let dt := if ¬ st.dto.isZero then st.dto
              else if ¬ st.dtd.isZero then st.dtd
              else if ¬ st.dtp.isZero then st.dtp
              else pi1.dateTaken
    let dm := if ¬ st.dtp.isZero ∧ dt ≠ st.dtp then st.dtp else dt
    let la := if st.lat3 ≠ 0 then (st.lat0 * st.lat3, st.lat1 * st.lat3, st.lat2 * st.lat3)
              else (st.lat0, st.lat1, st.lat2)
    let lo := if st.long3 ≠ 0 then (st.long0 * st.long3, st.long1 * st.long3, st.long2 * st.long3)
              else (st.long0, st.long1, st.long2)
    let gpsLoc := { pi1.gpsLoc with lat := DecDegFromDMS la.1 la.2.1 la.2.2,
                                    long := DecDegFromDMS lo.1 lo.2.1 lo.2.2 }
    let gpsDate := match st.gpstime with
      | some l => pi1.gpsDate.addSeconds (l.getD 0 0 * 3600 + l.getD 1 0 * 60 + l.getD 2 0)
      | none => pi1.gpsDate
    { pi1 with dateTaken := dt, dateMod := dm, gpsLoc := gpsLoc, gpsDate := gpsDate }

/-! ## `UpdateExif` (`picinfo/exif.go`) -/

/-- `UpdateExif` from the go-exif/v2 generation of `picinfo/exif.go`
(lines 309–397): re-parses the existing blob into a comparison record `ci`
(via `NewInfoForFile(pi.File)` + `ParseRawExif`), writes each of the six
scalar fields that differ into the tag-tree (the tree itself lives in the
external library; we model the record effects and the `updt` flag), and if
anything changed stamps `DateMod = now` and writes the `DateTime` tag.
`stat`/`sup` are the `os.Stat`/`filecat` environment for `NewInfoForFile`. -/
def UpdateExif (pi : Info) (sup : Int) (stat : Option Date) (now : Date)
    (rawExif : Option (List ExifTag)) : Bool × Info :=
  let ci := ParseRawExif (NewInfoForFile pi.file sup stat) rawExif
  let updt := decide (ci.dateTaken ≠ pi.dateTaken) || decide (ci.number ≠ pi.number) ||
              decide (ci.size.y ≠ pi.size.y) || decide (ci.size.x ≠ pi.size.x) ||
              decide (ci.orient ≠ pi.orient) || decide (ci.desc ≠ pi.desc)
  if updt then (true, { pi with dateMod := now }) else (false, pi)

/-- `UpdateExif` from the go-exif/v3 generation of `picinfo/exif.go`
(lines 1027–1121): the body is commented out and the function immediately
returns its zero-valued named results — `ib = nil`, `updt = false`,
`err = nil` — regardless of the blob and record. -/
def UpdateExifV3 (pi : Info) (sup : Int) (stat : Option Date) (now : Date)
    (rawExif : Option (List ExifTag)) : Bool × Info :=
  (false, pi)

/-- The six-field difference the claim (and the v2 code) tests: date taken,
burst number, height, width, orientation, description. -/
def scalarFieldsDiffer (ci pi : Info) : Bool :=
  decide (ci.dateTaken ≠ pi.dateTaken) || decide (ci.number ≠ pi.number) ||
  decide (ci.size.y ≠ pi.size.y) || decide (ci.size.x ≠ pi.size.x) ||
  decide (ci.orient ≠ pi.orient) || decide (ci.desc ≠ pi.desc)

/-! ## The visitor stage of the go-exif/v2 `ParseRawExif`
(`picinfo/exif.go` lines 124–164): each raw IFD entry either resolves to a
flat entry, or fails symbol lookup (`ErrTagNotFound`: a warning is printed
and the entry skipped), or fails value conversion
(`ErrUnhandledUndefinedTypedTag`: skipped silently); the walk continues in
both failure cases. -/

inductive VisitItem where
  | entry (e : ExifTag)
  | unknownTag
  | undefValue
deriving DecidableEq, Repr

/-- The entries the visitor accumulates: failed lookups and failed value
conversions are skipped, everything else is appended in order. -/
def collectEntries (items : List VisitItem) : List ExifTag :=
  items.filterMap (fun it =>
    match it with
    | .entry e => some e
    | .unknownTag => none
    | .undefValue => none)

/-! ## `Pics` and `PicMap` (`picinfo/picinfo.go`) -/

/-- The ordering `SortByDate(true)` hands to `sort.Slice`, completed to the
non-strict relation the sorted output satisfies: `a` may precede `b` when
`b.DateTaken` is not before `a.DateTaken`. -/
def dateLE (a b : Info) : Prop := Date.before b.dateTaken a.dateTaken = false

/-- The descending counterpart (`SortByDate(false)`). -/
def dateGE (a b : Info) : Prop := Date.before a.dateTaken b.dateTaken = false

instance : DecidableRel dateLE := fun a b => instDecidableEqBool _ _

instance : DecidableRel dateGE := fun a b => instDecidableEqBool _ _

/-- `Pics.SortByDate` from `picinfo/picinfo.go`: sorts by `DateTaken` via
`sort.Slice` with `Less(i,j) = pc[i].DateTaken.Before(pc[j].DateTaken)` when
ascending (swapped when descending).  `sort.Slice`'s unspecified comparison
sort is modelled by insertion sort over the same ordering. -/
def SortByDate (ascending : Bool) (pc : List Info) : List Info :=
  if ascending then List.insertionSort dateLE pc
  else List.insertionSort dateGE pc

/-- `Pics.Thumbs` from `picinfo/picinfo.go`. -/
def Thumbs (pc : List Info) : List String := pc.map (fun pi => pi.thumb)

/-- `PicMap.OpenJSON` from `picinfo/picinfo.go`.  The store is reset to an
empty map by the first statement; then the file is opened (`fs fname = none`
models a missing file: `os.Open` fails, the error is logged and returned) and
decoded (`some (.error ())` models undecodable JSON, also logged and
returned).  Result: the new store contents and the returned `error`
(`some ()` = non-nil). -/
def OpenJSON (fs : String → Option (Except Unit (List (String × Info))))
    (fname : String) : (List (String × Info)) × Option Unit :=
  match fs fname with
  | none => ([], some ())
  | some (.error _) => ([], some ())
  | some (.ok m) => (m, none)

/-! ## The per-file thumbnail decision (`gopix/thumbs.go` `ThumbUpdtThr`) -/

/-- Model of Go `strings.ToLower` on extensions: character-wise lowering.
(`String.toLower` itself is not kernel-reducible, so the model maps over the
character list.) -/
def toLowerStr (s : String) : String := String.mk (s.toList.map Char.toLower)

/-- What one `ThumbUpdtThr` loop iteration does with a file. -/
inductive ThumbAct where
  | skipNonImage
  | skipNoSource
  | keepExisting
  | generate
deriving DecidableEq, Repr

/-- One iteration of `ThumbUpdtThr` (`gopix/thumbs.go` lines 63–108), up to
the point where the thumbnail is regenerated or not: files without a
jpg/jpeg/png extension are skipped; a failed `os.Stat` on the source skips
the file; if the thumbnail stat succeeds and its modification time is not
before the source's, the existing thumbnail is kept untouched (`continue`);
otherwise the thumbnail is regenerated. -/
def ThumbUpdtStep (ext : String) (srcStat : Option Date) (thumbStat : Option Date) :
    ThumbAct :=
  if ¬ (toLowerStr ext = ".jpg" ∨ toLowerStr ext = ".jpeg" ∨ toLowerStr ext = ".png") then
    .skipNonImage
  else
    match srcStat with
    | none => .skipNoSource
    | some srcMod =>
      match thumbStat with
      | some thumbMod =>
        if ¬ (thumbMod.before srcMod = true) then .keepExisting else .generate
      | none => .generate

/-! ## Helper observations used to state the claims -/

/-- Every tag name with an explicit `case` in the `ParseRawExif` switch
(including the deliberately ignored ones); everything else reaches the
`default` case and lands in the open Tags map. -/
def handledTagNames : List String :=
  ["DateTimeOriginal", "DateTimeDigitized", "DateTime", "ImageNumber",
   "PixelYDimension", "PixelXDimension", "BitsPerSample", "Orientation",
   "ImageDescription", "ExposureTime", "ISOSpeedRatings", "ApertureValue",
   "FocalLength", "FNumber", "GPSLatitudeRef", "GPSLatitude",
   "GPSLongitudeRef", "GPSLongitude", "GPSAltitude", "GPSAltitudeRef",
   "GPSBearing", "GPSDestBearing", "GPSDestBearingRef", "GPSImgDirection",
   "GPSImgDirectionRef", "GPSSpeed", "GPSSpeedRef", "GPSDateStamp",
   "GPSTimeStamp", "ComponentsConfiguration", "UserComment", "MakerNote",
   "InteroperabilityIndex", "InteroperabilityVersion", "ExifTag",
   "ExifVersion"]

/-- One accumulator step of a date case of the entry loop, as a function of
the accumulator alone. -/
def dateAccStep (nm : String) (acc : Date) (e : ExifTag) : Date :=
  if e.tagName = nm then parsedOrZero e.formattedFirst else acc

/-- The effect of one entry-loop iteration on the open Tags map alone:
entries with an explicit case leave it unchanged, everything else is
inserted under its tag name. -/
def tagsStep (acc : List (String × String)) (e : ExifTag) : List (String × String) :=
  if e.tagName ∈ handledTagNames then acc
  else mapInsert acc e.tagName e.formattedFirst

/-- The date the entry-loop accumulator for tag `nm` holds after the walk:
the parse of the last entry named `nm` (zero if that parse failed), zero when
no such entry exists. -/
def lastParsedDate (entries : List ExifTag) (nm : String) : Date :=
  entries.foldl (dateAccStep nm) dateZero

/-- The formatted value of the last entry named `nm`, if any. -/
def lastFormatted (entries : List ExifTag) (nm : String) : Option String :=
  entries.foldl
    (fun acc e => if e.tagName = nm then some e.formattedFirst else acc)
    none

/-! ## Concrete fixtures used by the scenario theorems -/

/-- A filesystem modification time: 2021-06-01 00:00:00. -/
def egFileMod : Date := ⟨2021, 6, 1, 0, 0, 0⟩

/-- A "current time" for `DateMod` stamping. -/
def egNow : Date := ⟨2022, 1, 15, 12, 0, 0⟩

/-- A blob whose only entry is an image description. -/
def egDescBlob : List ExifTag := [⟨"ImageDescription", .ascii "old", "old", 1⟩]

/-- The GPS scenario blob: latitude DMS `[40,26,46]` ref `N`, longitude DMS
`[79,58,56]` ref `W`. -/
def egGPSBlob : List ExifTag :=
  [⟨"GPSLatitudeRef", .ascii "N", "N", 1⟩,
   ⟨"GPSLatitude", .rats [(40, 1), (26, 1), (46, 1)], "", 3⟩,
   ⟨"GPSLongitudeRef", .ascii "W", "W", 1⟩,
   ⟨"GPSLongitude", .rats [(79, 1), (58, 1), (56, 1)], "", 3⟩]

/-- Scenario file a: capture time 2021:05:01 10:00:00. -/
def egPicA : Info :=
  ParseRawExif (NewInfoForFile "a.jpg" 0 (some ⟨2021, 5, 2, 0, 0, 0⟩))
    (some [⟨"DateTimeOriginal", .ascii "2021:05:01 10:00:00", "2021:05:01 10:00:00", 1⟩])

/-- Scenario file b: capture time 2021:05:01 09:00:00. -/
def egPicB : Info :=
  ParseRawExif (NewInfoForFile "b.jpg" 0 (some ⟨2021, 5, 2, 0, 0, 0⟩))
    (some [⟨"DateTimeOriginal", .ascii "2021:05:01 09:00:00", "2021:05:01 09:00:00", 1⟩])

/-- Scenario file c: no EXIF at all; `DateTaken` falls back to the file
modification time 2021-06-01 00:00:00. -/
def egPicC : Info :=
  ParseRawExif (NewInfoForFile "c.jpg" 0 (some egFileMod)) none

/-! # Theorems -/

/-! ## Order facts about `Date.before` -/

theorem Date.before_iff (a b : Date) : a.before b = true ↔ Date.lt a b := by
  unfold Date.before Date.lt
  split_ifs <;> simp_all

theorem Date.not_before_iff (a b : Date) :
    a.before b = false ↔ ¬ Date.lt a b := by
  rw [← Bool.not_eq_true, not_iff_not, Date.before_iff]

theorem Date.lt_trans {a b c : Date} (h1 : Date.lt a b) (h2 : Date.lt b c) :
    Date.lt a c := by
  unfold Date.lt at *
  obtain ⟨a1, a2, a3, a4, a5, a6⟩ := a
  obtain ⟨b1, b2, b3, b4, b5, b6⟩ := b
  obtain ⟨c1, c2, c3, c4, c5, c6⟩ := c
  simp only at *
  omega

theorem Date.lt_total {a b : Date} (h1 : ¬ Date.lt a b) (h2 : ¬ Date.lt b a) :
    a = b := by
  unfold Date.lt at *
  obtain ⟨a1, a2, a3, a4, a5, a6⟩ := a
  obtain ⟨b1, b2, b3, b4, b5, b6⟩ := b
  simp only [Date.mk.injEq] at *
  omega

theorem Date.lt_irrefl (a : Date) : ¬ Date.lt a a := by
  unfold Date.lt
  omega

theorem dateLE_total (a b : Info) : dateLE a b ∨ dateLE b a := by
  unfold dateLE
  by_contra h
  push_neg at h
  obtain ⟨h1, h2⟩ := h
  simp only [ne_eq, Bool.not_eq_false] at h1 h2
  rw [Date.before_iff] at h1 h2
  exact Date.lt_irrefl _ (Date.lt_trans h1 h2)

theorem dateLE_trans (a b c : Info) (h1 : dateLE a b) (h2 : dateLE b c) :
    dateLE a c := by
  unfold dateLE at *
  rw [Date.not_before_iff] at *
  intro hca
  rcases Classical.em (Date.lt a.dateTaken b.dateTaken) with hab | hab
  · exact h2 (Date.lt_trans hca hab)
  · have : a.dateTaken = b.dateTaken := Date.lt_total hab h1
    exact h2 (this ▸ hca)

/-! ## C3: `OrientSize` swaps width/height exactly on the 90-degree family -/

/-- C3: for every size `s` and orientation value `o`, `OrientSize` returns
`s` with width and height swapped when `o` is one of the four
90-degree-family values (`Rotated90L`, `Rotated90R`, `FlippedHRotated90L`,
`FlippedHRotated90R`), returns `s` unchanged for every other orientation
value, and — whenever the swap is observable (`s.x ≠ s.y`) — swaps if and
only if `o` is in that family. -/
theorem orientSize_swaps_iff_ninety_family (o : Int) (sz : Point) :
    ((o = Rotated90L ∨ o = Rotated90R ∨ o = FlippedHRotated90L ∨ o = FlippedHRotated90R) →
      OrientSize o sz = ⟨sz.y, sz.x⟩) ∧
    (¬ (o = Rotated90L ∨ o = Rotated90R ∨ o = FlippedHRotated90L ∨ o = FlippedHRotated90R) →
      OrientSize o sz = sz) ∧
    (sz.x ≠ sz.y →
      (OrientSize o sz = ⟨sz.y, sz.x⟩ ↔
        (o = Rotated90L ∨ o = Rotated90R ∨ o = FlippedHRotated90L ∨ o = FlippedHRotated90R))) := by
  refine ⟨fun h => ?_, fun h => ?_, fun hxy => ⟨fun h => ?_, fun h => ?_⟩⟩
  · simp [OrientSize, h]
  · simp [OrientSize, h]
  · by_contra hmem
    rw [OrientSize, if_neg hmem] at h
    obtain ⟨x, y⟩ := sz
    simp only [Point.mk.injEq] at h
    exact hxy h.1
  · simp [OrientSize, h]

/-- Witness for C3 at a concrete 90-degree and a concrete non-family input. -/
theorem orientSize_swaps_iff_ninety_family_witness :
    OrientSize Rotated90L ⟨640, 480⟩ = ⟨480, 640⟩ ∧
    OrientSize Rotated180 ⟨640, 480⟩ = ⟨640, 480⟩ := by
  refine ⟨(orientSize_swaps_iff_ninety_family Rotated90L ⟨640, 480⟩).1 (by decide), ?_⟩
  exact (orientSize_swaps_iff_ninety_family Rotated180 ⟨640, 480⟩).2.1 (by decide)

/-! ## C10: `Rotate` fixes the mirror family, maps unset values into the
pure-rotation family -/

/-- C10: for every rotation amount, `Rotate` leaves each of the four
mirror-family orientation values (`FlippedH`, `FlippedV`,
`FlippedHRotated90L`, `FlippedHRotated90R`) unchanged, while the un-set
values `NoOrient` and `OrientUndef` are mapped by any rotation of 90, -90
or 180 degrees into the pure-rotation family `{Rotated0, Rotated180,
Rotated90L, Rotated90R}`. -/
theorem rotate_fixes_mirror_family (deg : Int)
    (hdeg : deg = 90 ∨ deg = -90 ∨ deg = 180) :
    (∀ d : Int, Rotate FlippedH d = FlippedH ∧ Rotate FlippedV d = FlippedV ∧
      Rotate FlippedHRotated90L d = FlippedHRotated90L ∧
      Rotate FlippedHRotated90R d = FlippedHRotated90R) ∧
    (Rotate NoOrient deg = Rotated0 ∨ Rotate NoOrient deg = Rotated180 ∨
      Rotate NoOrient deg = Rotated90L ∨ Rotate NoOrient deg = Rotated90R) ∧
    (Rotate OrientUndef deg = Rotated0 ∨ Rotate OrientUndef deg = Rotated180 ∨
      Rotate OrientUndef deg = Rotated90L ∨ Rotate OrientUndef deg = Rotated90R) := by
  refine ⟨fun d => ?_, ?_, ?_⟩
  · refine ⟨?_, ?_, ?_, ?_⟩ <;>
      simp [Rotate, FlippedH, FlippedV, FlippedHRotated90L, FlippedHRotated90R,
        NoOrient, Rotated0, OrientUndef, Rotated90L, Rotated90R, Rotated180]
  · rcases hdeg with h | h | h <;> subst h <;> decide
  · rcases hdeg with h | h | h <;> subst h <;> decide

/-- Witness for C10 at the concrete rotation 90. -/
theorem rotate_fixes_mirror_family_witness :
    ((90 : Int) = 90 ∨ (90 : Int) = -90 ∨ (90 : Int) = 180) ∧
    Rotate FlippedH 90 = FlippedH ∧ Rotate NoOrient 90 = Rotated90L := by
  refine ⟨Or.inl rfl, ((rotate_fixes_mirror_family 90 (Or.inl rfl)).1 90).1, ?_⟩
  decide

/-! ## C9: rational tag conversions are guarded against zero denominators -/

/-- C9: converting a rational or signed-rational value with `EntryToInt`,
`EntryToFloat` or `EntryToFloats` yields 0 whenever the denominator is 0,
and performs the numerator/denominator division only when the denominator is
non-zero; the conversions are total functions. -/
theorem entry_conversions_guard_zero_denominator (nm ff : String) (u : Nat)
    (n d : Nat) (ns ds : Int) (lr : List (Nat × Nat)) (ls : List (Int × Int)) :
    (EntryToInt ⟨nm, .rats ((n, d) :: lr), ff, u⟩ =
      if d = 0 then 0 else Int.ofNat (n / d)) ∧
    (EntryToInt ⟨nm, .srats ((ns, ds) :: ls), ff, u⟩ =
      if ds = 0 then 0 else Int.tdiv ns ds) ∧
    (EntryToFloat ⟨nm, .rats ((n, d) :: lr), ff, u⟩ =
      if d = 0 then 0 else (n : ℚ) / (d : ℚ)) ∧
    (EntryToFloat ⟨nm, .srats ((ns, ds) :: ls), ff, u⟩ =
      if ds = 0 then 0 else (ns : ℚ) / (ds : ℚ)) ∧
    (∀ i : Nat, (EntryToFloats ⟨nm, .rats ((n, d) :: lr), ff, u⟩).getD i 0 =
      if i < u then
        (((n, d) :: lr).map (fun p => if p.2 = 0 then (0 : ℚ) else (p.1 : ℚ) / (p.2 : ℚ))).getD i 0
      else 0) := by
  refine ⟨?_, ?_, ?_, ?_, fun i => ?_⟩
  · by_cases h : d = 0 <;> simp [EntryToInt, h]
  · by_cases h : ds = 0 <;> simp [EntryToInt, h]
  · by_cases h : d = 0 <;> simp [EntryToFloat, h]
  · by_cases h : ds = 0 <;> simp [EntryToFloat, h]
  · by_cases h : i < u
    · simp only [EntryToFloats, TagValue.toFloats, if_pos h]
      rw [List.getD_eq_getElem?_getD, List.getElem?_map, List.getElem?_range h]
      simp only [Option.map_some', Option.getD_some]
      congr 1
      simp [ite_not]
    · simp only [EntryToFloats, if_neg h]
      rw [List.getD_eq_getElem?_getD, List.getElem?_map]
      rw [List.getElem?_eq_none (by simpa using h)]
      rfl

/-! ## Fold machinery for the `ParseRawExif` entry loop -/

theorem foldl_proj {β : Type} (proj : PState → β) (g : β → ExifTag → β)
    (hstep : ∀ st e, proj (processEntry st e) = g (proj st) e) :
    ∀ (es : List ExifTag) (st : PState),
      proj (es.foldl processEntry st) = es.foldl g (proj st)
  | [], _ => rfl
  | e :: es, st => by
    rw [List.foldl_cons, List.foldl_cons, foldl_proj proj g hstep es, hstep]

theorem processEntry_dto (st : PState) (e : ExifTag) :
    (processEntry st e).dto = dateAccStep "DateTimeOriginal" st.dto e := by
  unfold processEntry dateAccStep
  dsimp only
  split <;> (repeat' split) <;> simp_all

theorem processEntry_dtd (st : PState) (e : ExifTag) :
    (processEntry st e).dtd = dateAccStep "DateTimeDigitized" st.dtd e := by
  unfold processEntry dateAccStep
  dsimp only
  split <;> (repeat' split) <;> simp_all

theorem processEntry_dtp (st : PState) (e : ExifTag) :
    (processEntry st e).dtp = dateAccStep "DateTime" st.dtp e := by
  unfold processEntry dateAccStep
  dsimp only
  split <;> (repeat' split) <;> simp_all

theorem processEntry_dateTaken (st : PState) (e : ExifTag) :
    (processEntry st e).pi.dateTaken = st.pi.dateTaken := by
  unfold processEntry
  dsimp only
  split <;> (repeat' split) <;> simp_all

theorem processEntry_tags (st : PState) (e : ExifTag) :
    (processEntry st e).pi.tags = tagsStep st.pi.tags e := by
  unfold processEntry tagsStep
  dsimp only
  split <;> (repeat' split) <;> simp_all [handledTagNames]

theorem foldl_keep {α β : Type} (a : β) (l : List α) :
    l.foldl (fun acc _ => acc) a = a := by
  induction l <;> simp_all

/-! ## C2: `DateTaken` resolution order -/

/-- The `DateTaken` of a record parsed from a blob: the last
`DateTimeOriginal` entry's date, else the last `DateTimeDigitized`, else the
last container `DateTime`, else whatever `DateTaken` the record already
held. -/
theorem parseRawExif_dateTaken (pi : Info) (es : List ExifTag) :
    (ParseRawExif pi (some es)).dateTaken =
      (if lastParsedDate es "DateTimeOriginal" ≠ dateZero then
        lastParsedDate es "DateTimeOriginal"
      else if lastParsedDate es "DateTimeDigitized" ≠ dateZero then
        lastParsedDate es "DateTimeDigitized"
      else if lastParsedDate es "DateTime" ≠ dateZero then
        lastParsedDate es "DateTime"
      else pi.dateTaken) := by
  unfold ParseRawExif
  dsimp only
  rw [foldl_proj (fun s => s.dto) _ processEntry_dto,
    foldl_proj (fun s => s.dtd) _ processEntry_dtd,
    foldl_proj (fun s => s.dtp) _ processEntry_dtp,
    foldl_proj (fun s => s.pi.dateTaken) (fun acc _ => acc) processEntry_dateTaken]
  dsimp only
  rw [foldl_keep]
  simp only [lastParsedDate, Date.isZero, decide_eq_true_eq, ne_eq]

/-- C2: after `NewInfoForFile` (which seeds `DateTaken` with the file
modification time) and `ParseRawExif`, `DateTaken` is the first non-zero of
the `DateTimeOriginal` tag, the `DateTimeDigitized` tag, the container
`DateTime` tag, and otherwise the filesystem modification time; it is
non-zero whenever the modification time is, including for a file with no
metadata blob at all. -/
theorem dateTaken_resolution_order (fn : String) (sup : Int) (fm : Date)
    (entries : List ExifTag) (hfm : fm ≠ dateZero) :
    ((ParseRawExif (NewInfoForFile fn sup (some fm)) (some entries)).dateTaken =
      (if lastParsedDate entries "DateTimeOriginal" ≠ dateZero then
        lastParsedDate entries "DateTimeOriginal"
      else if lastParsedDate entries "DateTimeDigitized" ≠ dateZero then
        lastParsedDate entries "DateTimeDigitized"
      else if lastParsedDate entries "DateTime" ≠ dateZero then
        lastParsedDate entries "DateTime"
      else fm)) ∧
    (ParseRawExif (NewInfoForFile fn sup (some fm)) (some entries)).dateTaken ≠ dateZero ∧
    (ParseRawExif (NewInfoForFile fn sup (some fm)) none).dateTaken = fm := by
  have hbase : (NewInfoForFile fn sup (some fm)).dateTaken = fm := rfl
  have h := parseRawExif_dateTaken (NewInfoForFile fn sup (some fm)) entries
  rw [hbase] at h
  refine ⟨h, ?_, hbase⟩
  rw [h]
  split_ifs <;> assumption

/-- Witness for C2: a record parsed from a one-tag blob carrying only
`DateTimeOriginal`, with a non-zero file modification time. -/
theorem dateTaken_resolution_order_witness :
    egPicA.dateTaken = ⟨2021, 5, 1, 10, 0, 0⟩ ∧ egPicA.dateTaken ≠ dateZero := by
  have h := dateTaken_resolution_order "a.jpg" 0 ⟨2021, 5, 2, 0, 0, 0⟩
    [⟨"DateTimeOriginal", .ascii "2021:05:01 10:00:00", "2021:05:01 10:00:00", 1⟩]
    (by decide)
  constructor
  · show (ParseRawExif (NewInfoForFile "a.jpg" 0 (some ⟨2021, 5, 2, 0, 0, 0⟩))
      (some [⟨"DateTimeOriginal", .ascii "2021:05:01 10:00:00",
        "2021:05:01 10:00:00", 1⟩])).dateTaken = ⟨2021, 5, 1, 10, 0, 0⟩
    rw [h.1]
    decide
  · exact h.2.1

/-! ## C5: preservation of unrecognized tags -/

theorem lookup_cons (a k b : String) (es : List (String × String)) :
    List.lookup a ((k, b) :: es) = if a = k then some b else List.lookup a es := by
  by_cases h : a = k
  · subst h
    simp [List.lookup]
  · have hb : (a == k) = false := beq_eq_false_iff_ne.mpr h
    simp [List.lookup, hb, h]

theorem lookup_map_replace_ne (m : List (String × String)) (k v k' : String)
    (h : k' ≠ k) :
    (m.map (fun p => if p.1 = k then (k, v) else p)).lookup k' = m.lookup k' := by
  induction m with
  | nil => rfl
  | cons p m ih =>
    obtain ⟨p1, p2⟩ := p
    simp only [List.map_cons]
    dsimp only
    by_cases hp : p1 = k
    · rw [if_pos hp, lookup_cons, lookup_cons, if_neg h,
        if_neg (show k' ≠ p1 from fun hh => h (hh.trans hp)), ih]
    · rw [if_neg hp, lookup_cons, lookup_cons, ih]

theorem lookup_map_replace_self (m : List (String × String)) (k v : String)
    (h : m.any (fun p => p.1 = k) = true) :
    (m.map (fun p => if p.1 = k then (k, v) else p)).lookup k = some v := by
  induction m with
  | nil => simp at h
  | cons p m ih =>
    obtain ⟨p1, p2⟩ := p
    simp only [List.map_cons]
    dsimp only
    by_cases hp : p1 = k
    · rw [if_pos hp, lookup_cons, if_pos rfl]
    · rw [if_neg hp, lookup_cons, if_neg (fun hh => hp hh.symm)]
      apply ih
      simp only [List.any_cons] at h
      dsimp only at h
      simp only [Bool.or_eq_true, decide_eq_true_eq] at h
      exact h.resolve_left hp

theorem lookup_none_of_any_false (m : List (String × String)) (k : String)
    (h : m.any (fun p => p.1 = k) = false) : m.lookup k = none := by
  induction m with
  | nil => rfl
  | cons p m ih =>
    obtain ⟨p1, p2⟩ := p
    simp only [List.any_cons] at h
    dsimp only at h
    simp only [Bool.or_eq_false_iff, decide_eq_false_iff_not] at h
    rw [lookup_cons, if_neg (fun hh => h.1 hh.symm), ih h.2]

theorem lookup_append_singleton (m : List (String × String)) (k v k' : String) :
    (m ++ [(k, v)]).lookup k' =
      (m.lookup k').or (if k' = k then some v else none) := by
  induction m with
  | nil =>
    rw [List.nil_append, lookup_cons]
    by_cases h : k' = k <;> simp [h, List.lookup]
  | cons p m ih =>
    obtain ⟨p1, p2⟩ := p
    rw [List.cons_append, lookup_cons, lookup_cons]
    by_cases hp : k' = p1
    · simp [hp]
    · simp [hp, ih]

/-- Lookup after an insert-or-replace: the inserted key maps to the new
value, every other key is untouched. -/
theorem lookup_mapInsert (m : List (String × String)) (k v k' : String) :
    (mapInsert m k v).lookup k' = if k' = k then some v else m.lookup k' := by
  unfold mapInsert
  by_cases hany : m.any (fun p => p.1 = k) = true
  · rw [if_pos hany]
    by_cases h : k' = k
    · subst h
      rw [if_pos rfl, lookup_map_replace_self m k' v hany]
    · rw [if_neg h, lookup_map_replace_ne m k v k' h]
  · rw [if_neg hany]
    rw [lookup_append_singleton]
    by_cases h : k' = k
    · subst h
      rw [lookup_none_of_any_false m k' (Bool.eq_false_iff.mpr hany)]
      simp
    · simp [h]

theorem lastFormatted_foldl (nm : String) :
    ∀ (es : List ExifTag) (a : Option String),
      es.foldl (fun acc e => if e.tagName = nm then some e.formattedFirst else acc) a
        = (lastFormatted es nm).or a
  | [], a => by simp [lastFormatted]
  | e :: es, a => by
    have hcons : lastFormatted (e :: es) nm =
        (lastFormatted es nm).or (if e.tagName = nm then some e.formattedFirst else none) := by
      unfold lastFormatted
      rw [List.foldl_cons, lastFormatted_foldl nm es]
      rfl
    rw [List.foldl_cons, lastFormatted_foldl nm es, hcons, Option.or_assoc]
    congr 1
    by_cases h : e.tagName = nm <;> simp [h]

theorem lookup_tagsStep_foldl (nm : String) (hnm : nm ∉ handledTagNames) :
    ∀ (es : List ExifTag) (m : List (String × String)),
      ((es.foldl tagsStep m).lookup nm) = (lastFormatted es nm).or (m.lookup nm)
  | [], m => by simp [lastFormatted]
  | e :: es, m => by
    have hcons : lastFormatted (e :: es) nm =
        (lastFormatted es nm).or (if e.tagName = nm then some e.formattedFirst else none) := by
      unfold lastFormatted
      rw [List.foldl_cons, lastFormatted_foldl nm es]
      rfl
    rw [List.foldl_cons, lookup_tagsStep_foldl nm hnm es, hcons, Option.or_assoc]
    congr 1
    unfold tagsStep
    by_cases hin : e.tagName ∈ handledTagNames
    · have hne : e.tagName ≠ nm := fun h => hnm (h ▸ hin)
      simp [hin, hne]
    · rw [if_neg hin, lookup_mapInsert]
      by_cases h2 : nm = e.tagName
      · simp [h2]
      · have h2' : e.tagName ≠ nm := fun h => h2 h.symm
        simp [h2, h2']

/-- C5 counterexample: the claim "no tag present in the blob is dropped" is
false — a blob consisting of one `UserComment` tag parses to a record
identical to the parse of the empty blob: the tag's value appears nowhere
(the `UserComment` case body is empty and the open Tags map stays empty). -/
theorem parseRawExif_drops_ignored_tag_counterexample :
    ParseRawExif (NewInfoForFile "u.jpg" 0 (some egFileMod))
        (some [⟨"UserComment", .ascii "note", "note", 1⟩]) =
      ParseRawExif (NewInfoForFile "u.jpg" 0 (some egFileMod)) (some []) ∧
    (ParseRawExif (NewInfoForFile "u.jpg" 0 (some egFileMod))
        (some [⟨"UserComment", .ascii "note", "note", 1⟩])).tags = [] := by
  exact ⟨rfl, rfl⟩

/-- C5 (amended): every tag whose name has no explicit case in the
`ParseRawExif` switch is preserved verbatim in the record's open Tags map —
the map holds exactly the formatted value of the last blob entry under that
name, and holds nothing for unhandled names absent from the blob; and the
go-exif/v2 visitor stage skips (rather than aborts on) entries whose symbol
lookup or value conversion fails, leaving the surrounding entries intact.
Explicitly-ignored tag names (`UserComment`, `MakerNote`, etc.) are dropped,
which is what the original claim's "no tag is dropped" clause missed. -/
theorem parseRawExif_preserves_unhandled_tags (pi : Info) (entries : List ExifTag)
    (nm : String) (hnm : nm ∉ handledTagNames) :
    ((ParseRawExif pi (some entries)).tags.lookup nm = lastFormatted entries nm) ∧
    (∀ xs ys : List VisitItem,
      collectEntries (xs ++ VisitItem.unknownTag :: ys) = collectEntries (xs ++ ys) ∧
      collectEntries (xs ++ VisitItem.undefValue :: ys) = collectEntries (xs ++ ys)) := by
  constructor
  · unfold ParseRawExif
    dsimp only
    rw [foldl_proj (fun s => s.pi.tags) tagsStep processEntry_tags]
    dsimp only
    rw [lookup_tagsStep_foldl nm hnm]
    simp [List.lookup]
  · intro xs ys
    constructor <;> simp [collectEntries, List.filterMap_append, List.filterMap_cons]

/-- Witness for C5 at a concrete unhandled tag. -/
theorem parseRawExif_preserves_unhandled_tags_witness :
    (ParseRawExif Info.zeroVal
        (some [⟨"FocalPlaneXResolution", .ascii "72", "72", 1⟩])).tags.lookup
      "FocalPlaneXResolution" = some "72" := by
  have h := (parseRawExif_preserves_unhandled_tags Info.zeroVal
    [⟨"FocalPlaneXResolution", .ascii "72", "72", 1⟩] "FocalPlaneXResolution"
    (by decide)).1
  rw [h]
  rfl

/-! ## C4: GPS DMS decoding -/

/-- C4: for every GPS degrees/minutes/seconds triplet of rationals and every
hemisphere reference letter, the decoded decimal coordinate equals
`DecDegFromDMS degs mins secs = degs + mins/60 + secs/3600`, with the sign
flipped when the latitude reference is not the northern letter `N`
(resp. the longitude reference is not the eastern letter `E`) — in
particular flipped for the southern/western letters `S`/`W`. -/
theorem parseRawExif_gps_dms (pi : Info)
    (dn dd mn md sn sd qn qd wn wd vn vd : Nat) (r q : String)
    (h1 : dd ≠ 0) (h2 : md ≠ 0) (h3 : sd ≠ 0)
    (h4 : qd ≠ 0) (h5 : wd ≠ 0) (h6 : vd ≠ 0) :
    (ParseRawExif pi (some
      [⟨"GPSLatitudeRef", .ascii r, r, 1⟩,
       ⟨"GPSLatitude", .rats [(dn, dd), (mn, md), (sn, sd)], "", 3⟩,
       ⟨"GPSLongitudeRef", .ascii q, q, 1⟩,
       ⟨"GPSLongitude", .rats [(qn, qd), (wn, wd), (vn, vd)], "", 3⟩])).gpsLoc.lat =
      (if r = "N" then 1 else -1) *
        DecDegFromDMS ((dn : ℚ) / dd) ((mn : ℚ) / md) ((sn : ℚ) / sd) ∧
    (ParseRawExif pi (some
      [⟨"GPSLatitudeRef", .ascii r, r, 1⟩,
       ⟨"GPSLatitude", .rats [(dn, dd), (mn, md), (sn, sd)], "", 3⟩,
       ⟨"GPSLongitudeRef", .ascii q, q, 1⟩,
       ⟨"GPSLongitude", .rats [(qn, qd), (wn, wd), (vn, vd)], "", 3⟩])).gpsLoc.long =
      (if q = "E" then 1 else -1) *
        DecDegFromDMS ((qn : ℚ) / qd) ((wn : ℚ) / wd) ((vn : ℚ) / vd) := by
  have hrange : List.range 3 = [0, 1, 2] := rfl
  unfold ParseRawExif
  dsimp only [List.foldl_cons, List.foldl_nil]
  simp only [processEntry, EntryToFloats, TagValue.toFloats, hrange]
  simp only [List.map_cons, List.map_nil, List.getD]
  simp only [h1, h2, h3, h4, h5, h6, ne_eq, not_false_iff, if_true, if_pos]
  refine ⟨?_, ?_⟩ <;>
    by_cases hr : r = "N" <;> by_cases hq : q = "E" <;>
      simp only [hr, hq, if_true, if_false, reduceIte] <;>
      norm_num <;>
      (try (unfold DecDegFromDMS; ring))

/-- Witness for C4: the spec scenario — latitude DMS `[40,26,46]` ref `N`
and longitude DMS `[79,58,56]` ref `W` decode to approximately `+40.446`
and `-79.982`, within `1e-3`. -/
theorem parseRawExif_gps_dms_witness :
    |(ParseRawExif Info.zeroVal (some egGPSBlob)).gpsLoc.lat - 40446 / 1000| ≤ 1 / 1000 ∧
    |(ParseRawExif Info.zeroVal (some egGPSBlob)).gpsLoc.long + 79982 / 1000| ≤ 1 / 1000 := by
  have h := parseRawExif_gps_dms Info.zeroVal 40 1 26 1 46 1 79 1 58 1 56 1 "N" "W"
    (by decide) (by decide) (by decide) (by decide) (by decide) (by decide)
  have h1 := h.1
  have h2 := h.2
  rw [show egGPSBlob =
    [⟨"GPSLatitudeRef", .ascii "N", "N", 1⟩,
     ⟨"GPSLatitude", .rats [(40, 1), (26, 1), (46, 1)], "", 3⟩,
     ⟨"GPSLongitudeRef", .ascii "W", "W", 1⟩,
     ⟨"GPSLongitude", .rats [(79, 1), (58, 1), (56, 1)], "", 3⟩] from rfl]
  rw [h1, h2, if_pos rfl, if_neg (show ("W" : String) ≠ "E" from by decide)]
  unfold DecDegFromDMS
  constructor <;> (rw [abs_le]; constructor <;> norm_num)

/-! ## C7: reconciliation output is sorted ascending by `DateTaken` -/

/-- C7: `Pics.SortByDate(true)` yields a list in which no record's
`DateTaken` is before that of any earlier record; and for the three scenario
files (capture times 2021:05:01 10:00:00 and 09:00:00, plus a file with no
metadata whose `DateTaken` falls back to its modification time
2021-06-01 00:00:00) the ascending order is `[09:00, 10:00, 2021-06-01]`. -/
theorem sortByDate_ascending_ordered_scenario :
    (∀ pc : List Info, (SortByDate true pc).Pairwise
      (fun a b => Date.before b.dateTaken a.dateTaken = false)) ∧
    (SortByDate true [egPicA, egPicB, egPicC]).map (fun pi => pi.file) =
      ["b.jpg", "a.jpg", "c.jpg"] ∧
    (SortByDate true [egPicA, egPicB, egPicC]).map (fun pi => pi.dateTaken) =
      [⟨2021, 5, 1, 9, 0, 0⟩, ⟨2021, 5, 1, 10, 0, 0⟩, ⟨2021, 6, 1, 0, 0, 0⟩] := by
  refine ⟨fun pc => ?_, by decide, by decide⟩
  haveI : IsTotal Info dateLE := ⟨dateLE_total⟩
  haveI : IsTrans Info dateLE := ⟨dateLE_trans⟩
  unfold SortByDate
  rw [if_pos rfl]
  exact List.sorted_insertionSort dateLE pc

/-! ## C6: loading a missing store file -/

/-- C6 counterexample: `OpenJSON` on a missing file does leave the store as
an empty map, but it is reported as an error — the `os.Open` failure is
logged and returned to the caller, refuting "is not reported as an error". -/
theorem openJSON_missing_file_counterexample :
    (OpenJSON (fun _ => none) "info.json").1 = [] ∧
    (OpenJSON (fun _ => none) "info.json").2 ≠ none := by
  exact ⟨rfl, by decide⟩

/-- C6 (amended): loading the store from a path with no cache file resets
the store to an empty map (cold start), but `OpenJSON` logs and returns the
non-nil open error rather than swallowing it. -/
theorem openJSON_missing_file_empty_store
    (fs : String → Option (Except Unit (List (String × Info)))) (fname : String)
    (h : fs fname = none) :
    OpenJSON fs fname = ([], some ()) := by
  unfold OpenJSON
  rw [h]

/-- Witness for C6 on a concrete empty filesystem. -/
theorem openJSON_missing_file_empty_store_witness :
    OpenJSON (fun _ => none) "info.json" = ([], some ()) :=
  openJSON_missing_file_empty_store (fun _ => none) "info.json" rfl

/-! ## C8: thumbnail regeneration is purely modification-time driven -/

/-- C8: for a tracked image file whose source stat succeeds, thumbnail
generation is skipped (and the existing thumbnail left untouched) whenever a
thumbnail exists whose modification time is not before the source's; it is
regenerated exactly when the thumbnail is missing or older than the
source. -/
theorem thumb_skip_iff_fresh (ext : String) (srcMod : Date)
    (thumbStat : Option Date)
    (himg : toLowerStr ext = ".jpg" ∨ toLowerStr ext = ".jpeg" ∨ toLowerStr ext = ".png") :
    (∀ tm : Date, thumbStat = some tm → tm.before srcMod = false →
      ThumbUpdtStep ext (some srcMod) thumbStat = ThumbAct.keepExisting) ∧
    (ThumbUpdtStep ext (some srcMod) thumbStat = ThumbAct.generate ↔
      thumbStat = none ∨ ∃ tm : Date, thumbStat = some tm ∧ tm.before srcMod = true) := by
  unfold ThumbUpdtStep
  rw [if_neg (not_not_intro himg)]
  constructor
  · intro tm htm hb
    subst htm
    simp [hb]
  · cases thumbStat with
    | none => simp
    | some tm =>
      by_cases hb : tm.before srcMod = true
      · simp [hb]
      · simp [hb]

/-- Witness for C8: a fresh thumbnail (modification time after the source)
is kept untouched. -/
theorem thumb_skip_iff_fresh_witness :
    ThumbUpdtStep ".jpg" (some ⟨2021, 5, 1, 0, 0, 0⟩) (some ⟨2021, 5, 2, 0, 0, 0⟩) =
      ThumbAct.keepExisting := by
  exact (thumb_skip_iff_fresh ".jpg" ⟨2021, 5, 1, 0, 0, 0⟩ (some ⟨2021, 5, 2, 0, 0, 0⟩)
    (by decide)).1 ⟨2021, 5, 2, 0, 0, 0⟩ rfl (by decide)

/-! ## C1: `UpdateExif` the v3 stub versus its own contract -/

theorem processEntry_file (st : PState) (e : ExifTag) :
    (processEntry st e).pi.file = st.pi.file := by
  unfold processEntry
  dsimp only
  split <;> (repeat' split) <;> simp_all

theorem parseRawExif_file (pi : Info) (b : Option (List ExifTag)) :
    (ParseRawExif pi b).file = pi.file := by
  cases b with
  | none => rfl
  | some es =>
    unfold ParseRawExif
    dsimp only
    rw [foldl_proj (fun s => s.pi.file) (fun acc _ => acc) processEntry_file]
    dsimp only
    rw [foldl_keep]

/-- Round-trip no-op of the go-exif/v2 `UpdateExif`: updating with the
record just parsed from the same blob (and the same stat environment)
compares the record against an identical re-parse, so no field differs,
`changed = false`, and the record is returned untouched. -/
theorem updateExif_roundtrip_noop (fn : String) (sup : Int) (stat : Option Date)
    (now : Date) (rawExif : Option (List ExifTag)) :
    UpdateExif (ParseRawExif (NewInfoForFile fn sup stat) rawExif) sup stat now rawExif =
      (false, ParseRawExif (NewInfoForFile fn sup stat) rawExif) := by
  unfold UpdateExif
  rw [parseRawExif_file]
  have hnf : (NewInfoForFile fn sup stat).file = fn := by
    cases stat <;> rfl
  rw [hnf]
  simp

/-- C1: evaluation at the failing input.  With a blob whose description is
"old" and a record whose description is "new" (every other compared field
equal), the six-field difference the claim describes is present, and the
older go-exif/v2 `UpdateExif` correctly reports `changed = true` and stamps
`DateMod = now`; but the current go-exif/v3 `UpdateExif` — whose body is
commented out — returns `changed = false` unconditionally, contradicting the
claim and the function's own doc comment.  The final conjunct checks the
claimed round-trip no-op on the v2 code path: updating with the record just
parsed from the same blob reports `changed = false` and leaves the record
untouched. -/
theorem updateExif_stub_code_bug :
    (UpdateExifV3
        { ParseRawExif (NewInfoForFile "img.jpg" 0 (some egFileMod)) (some egDescBlob) with
            desc := "new" }
        0 (some egFileMod) egNow (some egDescBlob)).1 = false ∧
    scalarFieldsDiffer
      (ParseRawExif (NewInfoForFile "img.jpg" 0 (some egFileMod)) (some egDescBlob))
      { ParseRawExif (NewInfoForFile "img.jpg" 0 (some egFileMod)) (some egDescBlob) with
          desc := "new" } = true ∧
    (UpdateExif
        { ParseRawExif (NewInfoForFile "img.jpg" 0 (some egFileMod)) (some egDescBlob) with
            desc := "new" }
        0 (some egFileMod) egNow (some egDescBlob)).1 = true ∧
    (UpdateExif
        { ParseRawExif (NewInfoForFile "img.jpg" 0 (some egFileMod)) (some egDescBlob) with
            desc := "new" }
        0 (some egFileMod) egNow (some egDescBlob)).2.dateMod = egNow ∧
    UpdateExif (ParseRawExif (NewInfoForFile "img.jpg" 0 (some egFileMod)) (some egDescBlob))
        0 (some egFileMod) egNow (some egDescBlob) =
      (false, ParseRawExif (NewInfoForFile "img.jpg" 0 (some egFileMod)) (some egDescBlob)) := by
  refine ⟨rfl, by decide, by decide, by decide,
    updateExif_roundtrip_noop "img.jpg" 0 (some egFileMod) egNow (some egDescBlob)⟩

end Gopix
